import Mathlib

/-!
Verification of the inventory stock-reservation subsystem of the airkicks
storefront backend (src/services/paymentService.js, class InventoryService).

The embedding models the state relevant to a single (productId, variant)
key: the authoritative stock count held by the product record, the per-key
reservation map (a JS Map from reservationId to the stored reservation
object), and the availability cache entry for that key (an Option, none
meaning a cache miss). Time is an explicit integer parameter standing for
Date.now() in milliseconds; a reservation stores its ttl already multiplied
by 1000 exactly as the source does. JS numbers on these code paths are
integers, embedded as Int with the Math.max(0, _) floors written out.
-/

namespace Inventory

/-- A reservation as stored by reserveStock: quantity, createdAt = Date.now()
at creation, and ttl in milliseconds (the source stores options.ttl * 1000). -/
structure Reservation where
  quantity : Int
  createdAt : Int
  ttl : Int
deriving DecidableEq

/-- State of a single (productId, variant) key: the authoritative stock count,
the per-key reservation map in insertion order, and the availability cache
entry for the key (none is a miss). -/
structure InvState where
  stock : Int
  reservations : List (String × Reservation)
  cache : Option Int
deriving DecidableEq

/-- JS Map.get on an association list. -/
def mapGet (l : List (String × Reservation)) (k : String) : Option Reservation :=
  (l.find? (fun e => e.1 == k)).map (fun e => e.2)

/-- JS Map.set on an association list: replaces the entry in place when the key
is present, appends otherwise, preserving insertion order. -/
def mapSet (l : List (String × Reservation)) (k : String) (v : Reservation) :
    List (String × Reservation) :=
  if l.any (fun e => e.1 == k) then
    l.map (fun e => if e.1 == k then (k, v) else e)
  else l ++ [(k, v)]

/-- JS Map.delete on an association list. -/
def mapDelete (l : List (String × Reservation)) (k : String) :
    List (String × Reservation) :=
  l.filter (fun e => !(e.1 == k))

/-- InventoryService.getReservedStock restricted to the reservation map of one
key: scans the entries, deletes every entry with now strictly past
createdAt + ttl, and sums the quantities of the remaining ones. Returns the
total together with the map left after the lazy eviction. -/
def getReservedStock (now : Int) :
    List (String × Reservation) → Int × List (String × Reservation)
  | [] => (0, [])
  | e :: rest =>
      let r := getReservedStock now rest
      if now > e.2.createdAt + e.2.ttl then (r.1, r.2)
      else (r.1 + e.2.quantity, e :: r.2)

/-- Result record of checkAvailability. -/
structure CheckResult where
  available : Bool
  stock : Int
  requested : Int
  canFulfill : Int
deriving DecidableEq

/-- InventoryService.checkAvailability specialized to a single existing,
active key. Cache hit: the cached integer is used directly and canFulfill is
the whole cached stock. Cache miss: the reserved total is recomputed with its
lazy eviction, actualAvailable is Math.max(0, stock - reserved), the value is
written to the cache, and canFulfill is Math.min(actualAvailable, quantity). -/
def checkAvailability (now : Int) (s : InvState) (quantity : Int) :
    CheckResult × InvState :=
  match s.cache with
  | some c =>
      ({ available := decide (c ≥ quantity), stock := c, requested := quantity,
         canFulfill := c }, s)
  | none =>
      let r := getReservedStock now s.reservations
      let actualAvailable := max 0 (s.stock - r.1)
      ({ available := decide (actualAvailable ≥ quantity), stock := actualAvailable,
         requested := quantity, canFulfill := min actualAvailable quantity },
       { s with reservations := r.2, cache := some actualAvailable })

/-- Inventory error taxonomy used by the embedded operations. -/
inductive InvError where
  | InsufficientStock (available requested : Int)
  | ProductNotFound
  | VariantNotFound
  | InvalidOperation
deriving DecidableEq

instance {ε α : Type} [DecidableEq ε] [DecidableEq α] : DecidableEq (Except ε α) :=
  fun x y =>
  match x, y with
  | Except.ok a, Except.ok b =>
      if h : a = b then isTrue (congrArg Except.ok h)
      else isFalse (fun hc => h (Except.ok.inj hc))
  | Except.error a, Except.error b =>
      if h : a = b then isTrue (congrArg Except.error h)
      else isFalse (fun hc => h (Except.error.inj hc))
  | Except.ok _, Except.error _ => isFalse (fun hc => Except.noConfusion hc)
  | Except.error _, Except.ok _ => isFalse (fun hc => Except.noConfusion hc)

/-- The insertion half of InventoryService.reserveStock: runs after the
availability check has succeeded, stores the reservation under reservationId
with Map.set semantics (overwriting any existing entry with that id), and
deletes the cache entry for the key. The ttl argument is in seconds and is
stored multiplied by 1000. -/
def insertReservation (now : Int) (reservationId : String) (quantity : Int)
    (ttl : Int) (s : InvState) : InvState :=
  { s with
    reservations := mapSet s.reservations reservationId ⟨quantity, now, ttl * 1000⟩,
    cache := none }

/-- InventoryService.reserveStock on a single key: first the cache-first
availability check, then, when it reports available, the insertion and the
cache delete. On an insufficient check the call throws and the state is left
as the check left it, including any cache entry the check itself wrote. On
success it returns the quantity and expiresAt = now + ttl * 1000. -/
def reserveStock (now : Int) (reservationId : String) (quantity : Int)
    (ttl : Int) (s : InvState) : Except InvError (Int × Int) × InvState :=
  let c := checkAvailability now s quantity
  if c.1.available then
    (Except.ok (quantity, now + ttl * 1000),
     insertReservation now reservationId quantity ttl c.2)
  else
    (Except.error (InvError.InsufficientStock c.1.stock quantity), c.2)

/-- Result record of releaseReservation. -/
structure ReleaseResult where
  success : Bool
  quantity : Option Int
deriving DecidableEq

/-- InventoryService.releaseReservation on a single key: when the id is not in
the map it returns success false and leaves the state untouched (the early
return precedes the cache delete); otherwise it removes the entry, deletes the
cache entry, and returns the stored quantity. -/
def releaseReservation (reservationId : String) (s : InvState) :
    ReleaseResult × InvState :=
  match mapGet s.reservations reservationId with
  | none => ({ success := false, quantity := none }, s)
  | some r =>
      ({ success := true, quantity := some r.quantity },
       { s with reservations := mapDelete s.reservations reservationId,
                cache := none })

/-- InventoryService.updateStock specialized to the base (no variant) path of
a single existing product, acting on the key state: the switch on the
operation string computes newStock, the product is saved, and the cache entry
is deleted. An unknown operation throws before any mutation and before the
cache delete. -/
def updateStockKey (quantity : Int) (operation : String) (s : InvState) :
    Except InvError (Int × Int) × InvState :=
  let oldStock := s.stock
  if operation = "set" then
    (Except.ok (oldStock, quantity), { s with stock := quantity, cache := none })
  else if operation = "add" then
    (Except.ok (oldStock, oldStock + quantity),
     { s with stock := oldStock + quantity, cache := none })
  else if operation = "subtract" then
    (Except.ok (oldStock, max 0 (oldStock - quantity)),
     { s with stock := max 0 (oldStock - quantity), cache := none })
  else
    (Except.error InvError.InvalidOperation, s)

/-- The eviction loop of InventoryService.cleanupExpiredReservations on the
reservation map of one key: deletes every entry with now strictly past
createdAt + ttl, keeping the rest in order. -/
def cleanupList (now : Int) :
    List (String × Reservation) → List (String × Reservation)
  | [] => []
  | e :: rest =>
      if now > e.2.createdAt + e.2.ttl then cleanupList now rest
      else e :: cleanupList now rest

/-- InventoryService.cleanupExpiredReservations (the periodic sweep)
restricted to one key: evicts the expired reservations. The source function
contains no cache delete, so the cache field is left untouched. -/
def cleanupExpiredReservations (now : Int) (s : InvState) : InvState :=
  { s with reservations := cleanupList now s.reservations }

/-- Derived availability of a key at a given instant: the specification
formula max(0, totalStock - sum of quantities of non-expired reservations),
where a reservation counts while now has not strictly passed
createdAt + ttl, matching the eviction test of the source. -/
def availableNow (now : Int) (s : InvState) : Int :=
  max 0 (s.stock -
    ((s.reservations.filter (fun e => decide (now ≤ e.2.createdAt + e.2.ttl))).map
      (fun e => e.2.quantity)).sum)

/-- Sum of quantities of exactly the reservations whose expiresAt is still in
the future, expiresAt strictly greater than now: the registry total as the
specification words it, for comparison against getReservedStock. -/
def futureReservedSum (now : Int) (rs : List (String × Reservation)) : Int :=
  ((rs.filter (fun e => decide (now < e.2.createdAt + e.2.ttl))).map
    (fun e => e.2.quantity)).sum

/-- One call of the single-key operation sequence: a reserveStock, a
releaseReservation or an updateStock, each reserve carrying the instant at
which it runs. -/
inductive Op where
  | reserve (now : Int) (reservationId : String) (quantity : Int) (ttl : Int)
  | release (reservationId : String)
  | update (quantity : Int) (operation : String)
deriving DecidableEq

/-- Apply one operation to the key state, discarding the returned value. -/
def execOp : Op → InvState → InvState
  | Op.reserve now id q ttl, s => (reserveStock now id q ttl s).2
  | Op.release id, s => (releaseReservation id s).2
  | Op.update q op, s => (updateStockKey q op s).2

/-- Apply a sequence of operations in order. -/
def execOps : List Op → InvState → InvState
  | [], s => s
  | op :: rest, s => execOps rest (execOp op s)

/-- Argument validity from the data model: requested and mutation quantities
are non-negative integers. -/
def OpValid : Op → Prop
  | Op.reserve _ _ q _ => 0 ≤ q
  | Op.release _ => True
  | Op.update q _ => 0 ≤ q

instance : DecidablePred OpValid := fun op =>
  match op with
  | Op.reserve _ _ q _ => inferInstanceAs (Decidable (0 ≤ q))
  | Op.release _ => inferInstanceAs (Decidable True)
  | Op.update q _ => inferInstanceAs (Decidable (0 ≤ q))

/-- Data-model validity of a key state: the stock count is non-negative and
every stored reservation has a non-negative quantity. -/
def StateValid (s : InvState) : Prop :=
  0 ≤ s.stock ∧ ∀ e ∈ s.reservations, 0 ≤ e.2.quantity

instance (s : InvState) : Decidable (StateValid s) := by
  unfold StateValid; infer_instance

/-- A product variant record: optional size and color dimensions and the
stock count of the variant. -/
structure Variant where
  size : Option String
  color : Option String
  stock : Int
deriving DecidableEq

/-- The product record as updateStock sees it: aggregate stock, the variant
list, and the active flag. -/
structure Product where
  stock : Int
  variants : List Variant
  isActive : Bool
deriving DecidableEq

/-- The variant selector of the source: a variant matches when every
specified dimension equals the corresponding variant field, an unspecified
dimension matching anything. -/
def variantMatches (size color : Option String) (v : Variant) : Bool :=
  (match size with
   | none => true
   | some s => v.size == some s) &&
  (match color with
   | none => true
   | some c => v.color == some c)

/-- InventoryService.updateStock on the product record: when size or color is
given the variant is resolved by findIndex, failing with VariantNotFound, the
operation switch computes newStock with subtract floored at 0, the variant
stock is written and the aggregate product stock is recomputed as the sum
over all variants; on the base path the product stock is written directly. An
unknown operation fails with InvalidOperation before any mutation. Returns
oldStock, newStock and the updated product record. -/
def updateStock (product : Option Product) (quantity : Int) (operation : String)
    (size color : Option String) : Except InvError (Int × Int × Product) :=
  match product with
  | none => Except.error InvError.ProductNotFound
  | some p =>
    if size.isSome || color.isSome then
      match p.variants.findIdx? (variantMatches size color) with
      | none => Except.error InvError.VariantNotFound
      | some i =>
        if operation = "set" then
          Except.ok ((p.variants.getD i ⟨none, none, 0⟩).stock, quantity,
            { p with
              variants := p.variants.set i
                { p.variants.getD i ⟨none, none, 0⟩ with stock := quantity },
              stock := ((p.variants.set i
                { p.variants.getD i ⟨none, none, 0⟩ with stock := quantity }).map
                  (fun w => w.stock)).sum })
        else if operation = "add" then
          Except.ok ((p.variants.getD i ⟨none, none, 0⟩).stock,
            (p.variants.getD i ⟨none, none, 0⟩).stock + quantity,
            { p with
              variants := p.variants.set i
                { p.variants.getD i ⟨none, none, 0⟩ with
                  stock := (p.variants.getD i ⟨none, none, 0⟩).stock + quantity },
              stock := ((p.variants.set i
                { p.variants.getD i ⟨none, none, 0⟩ with
                  stock := (p.variants.getD i ⟨none, none, 0⟩).stock + quantity }).map
                  (fun w => w.stock)).sum })
        else if operation = "subtract" then
          Except.ok ((p.variants.getD i ⟨none, none, 0⟩).stock,
            max 0 ((p.variants.getD i ⟨none, none, 0⟩).stock - quantity),
            { p with
              variants := p.variants.set i
                { p.variants.getD i ⟨none, none, 0⟩ with
                  stock := max 0 ((p.variants.getD i ⟨none, none, 0⟩).stock - quantity) },
              stock := ((p.variants.set i
                { p.variants.getD i ⟨none, none, 0⟩ with
                  stock := max 0 ((p.variants.getD i ⟨none, none, 0⟩).stock - quantity) }).map
                  (fun w => w.stock)).sum })
        else Except.error InvError.InvalidOperation
    else
      if operation = "set" then
        Except.ok (p.stock, quantity, { p with stock := quantity })
      else if operation = "add" then
        Except.ok (p.stock, p.stock + quantity, { p with stock := p.stock + quantity })
      else if operation = "subtract" then
        Except.ok (p.stock, max 0 (p.stock - quantity),
          { p with stock := max 0 (p.stock - quantity) })
      else Except.error InvError.InvalidOperation

/-- A concrete product with two sized variants, used to instantiate the
variant-path statements on explicit inputs. -/
def witnessProduct : Product :=
  ⟨5, [⟨some "9", none, 2⟩, ⟨some "10", none, 3⟩], true⟩

/-- InventoryService.releaseReservation when the cache delete collaborator
throws: the registry deletion has already happened in place on the JS Map,
the await of the cache delete raises, the catch block logs and rethrows, so
the call reports failure while the registry mutation persists and the cache
entry survives. -/
def releaseReservationCacheThrow (reservationId : String) (s : InvState) :
    Except String ReleaseResult × InvState :=
  match mapGet s.reservations reservationId with
  | none => (Except.ok { success := false, quantity := none }, s)
  | some _ =>
      (Except.error "cache delete failed",
       { s with reservations := mapDelete s.reservations reservationId })

/-- Claim C1: two reserveStock calls on a key with total stock 1, each
requesting 1 unit, interleaved so that both availability checks run before
either insertion (the source suspends between its check and its insertion and
holds no lock), are both admitted: the registry afterwards holds 2 reserved
units against a total stock of 1, so more than S = 1 calls succeed, refuting
the claimed critical section. The first check writes the availability to the
cache, the second check reads it back as a hit. -/
theorem reserveStock_race_oversell :
    (checkAvailability 0 ⟨1, [], none⟩ 1).1.available = true ∧
    (checkAvailability 0 ((checkAvailability 0 ⟨1, [], none⟩ 1).2) 1).1.available = true ∧
    ((insertReservation 0 "r2" 1 900
        (insertReservation 0 "r1" 1 900
          ((checkAvailability 0 ((checkAvailability 0 ⟨1, [], none⟩ 1).2) 1).2))).reservations.map
      (fun e => e.2.quantity)).sum = 2 ∧
    (insertReservation 0 "r2" 1 900
        (insertReservation 0 "r1" 1 900
          ((checkAvailability 0 ((checkAvailability 0 ⟨1, [], none⟩ 1).2) 1).2))).stock = 1 ∧
    availableNow 0
      (insertReservation 0 "r2" 1 900
        (insertReservation 0 "r1" 1 900
          ((checkAvailability 0 ((checkAvailability 0 ⟨1, [], none⟩ 1).2) 1).2))) = 0 := by
  decide

/-- Claim C3: two reserveStock runs over the same ledger stock (5) and the
same reservation registry (empty) that differ only in the cache contents get
different admission outcomes: with a stale cache entry 0 the call fails with
InsufficientStock, with an empty cache it succeeds, so the cache does act as
a source of truth for admission. -/
theorem reserveStock_cache_decides_admission :
    (reserveStock 0 "r1" 1 900 ⟨5, [], some 0⟩).1 =
      Except.error (InvError.InsufficientStock 0 1) ∧
    (reserveStock 0 "r1" 1 900 ⟨5, [], none⟩).1 = Except.ok (1, 900000) ∧
    (⟨5, [], some 0⟩ : InvState).stock = (⟨5, [], none⟩ : InvState).stock ∧
    (⟨5, [], some 0⟩ : InvState).reservations =
      (⟨5, [], none⟩ : InvState).reservations := by
  decide

/-- Claim C6: the periodic sweep does not invalidate the cache. At time 0 a
cache miss read computes availability 0 (stock 5 fully reserved) and writes it
to the cache; at time 1000 the reservation has expired and the sweep evicts
it, yet the cache entry survives the sweep, and the next cache-first read
still answers from the stale entry: available false although the true derived
availability is 5. -/
theorem cleanup_leaves_stale_cache :
    (checkAvailability 0 ⟨5, [("r1", ⟨5, 0, 100⟩)], none⟩ 1).2.cache = some 0 ∧
    (cleanupExpiredReservations 1000 ⟨5, [("r1", ⟨5, 0, 100⟩)], some 0⟩).reservations = [] ∧
    (cleanupExpiredReservations 1000 ⟨5, [("r1", ⟨5, 0, 100⟩)], some 0⟩).cache = some 0 ∧
    availableNow 1000 (cleanupExpiredReservations 1000 ⟨5, [("r1", ⟨5, 0, 100⟩)], some 0⟩) = 5 ∧
    (checkAvailability 1000
      (cleanupExpiredReservations 1000 ⟨5, [("r1", ⟨5, 0, 100⟩)], some 0⟩) 1).1.available = false := by
  decide

/-- Claim C5 counterexample: at the instant now = expiresAt = createdAt + ttl
the expiry is not in the future any more, yet getReservedStock still counts
the reservation: it returns 2 while the sum over reservations with expiresAt
strictly in the future is 0. -/
theorem getReservedStock_boundary_counterexample :
    (getReservedStock 100 [("r1", ⟨2, 0, 100⟩)]).1 = 2 ∧
    futureReservedSum 100 [("r1", ⟨2, 0, 100⟩)] = 0 ∧
    ¬ (getReservedStock 100 [("r1", ⟨2, 0, 100⟩)]).1 =
        futureReservedSum 100 [("r1", ⟨2, 0, 100⟩)] := by
  decide

/-- Claim C7 counterexample: reserveStock called with the already-present
reservationId r1 does not fail: it returns success and overwrites the stored
reservation, so the registry is changed by the call, the old quantity 2 being
replaced by the new quantity 1. -/
theorem reserveStock_duplicate_counterexample :
    (reserveStock 0 "r1" 1 900 ⟨5, [("r1", ⟨2, 0, 900000⟩)], none⟩).1 =
      Except.ok (1, 900000) ∧
    (reserveStock 0 "r1" 1 900 ⟨5, [("r1", ⟨2, 0, 900000⟩)], none⟩).2.reservations =
      [("r1", ⟨1, 0, 900000⟩)] ∧
    ¬ (reserveStock 0 "r1" 1 900 ⟨5, [("r1", ⟨2, 0, 900000⟩)], none⟩).2.reservations =
        [("r1", ⟨2, 0, 900000⟩)] := by
  decide

/-- Claim C8 counterexample: with a reservation r1 of quantity 2 already
present, the derived availability is 3; a successful reserveStock that reuses
the id r1 with quantity 1 followed immediately by releaseReservation returns
quantity 1 but leaves availability 5, not the pre-reservation value 3,
because the reserve overwrote the older hold. -/
theorem reserve_release_roundtrip_counterexample :
    availableNow 0 (⟨5, [("r1", ⟨2, 0, 900000⟩)], none⟩ : InvState) = 3 ∧
    (reserveStock 0 "r1" 1 900 ⟨5, [("r1", ⟨2, 0, 900000⟩)], none⟩).1 =
      Except.ok (1, 900000) ∧
    (releaseReservation "r1"
      (reserveStock 0 "r1" 1 900 ⟨5, [("r1", ⟨2, 0, 900000⟩)], none⟩).2).1 =
      { success := true, quantity := some 1 } ∧
    availableNow 0
      (releaseReservation "r1"
        (reserveStock 0 "r1" 1 900 ⟨5, [("r1", ⟨2, 0, 900000⟩)], none⟩).2).2 = 5 ∧
    ¬ availableNow 0
        (releaseReservation "r1"
          (reserveStock 0 "r1" 1 900 ⟨5, [("r1", ⟨2, 0, 900000⟩)], none⟩).2).2 = 3 := by
  decide

/-- Claim C9 counterexample: on a cache hit with cached availability 5 and
requested quantity 3, checkAvailability returns canFulfill 5, the whole
cached stock, not min(5, 3) = 3 as on the recompute path, so the cached and
recomputed answers differ in shape. -/
theorem checkAvailability_cache_canFulfill_counterexample :
    (checkAvailability 0 ⟨5, [], some 5⟩ 3).1.canFulfill = 5 ∧
    (checkAvailability 0 ⟨5, [], none⟩ 3).1.canFulfill = 3 ∧
    ¬ (checkAvailability 0 ⟨5, [], some 5⟩ 3).1.canFulfill =
        min (checkAvailability 0 ⟨5, [], some 5⟩ 3).1.stock
          (checkAvailability 0 ⟨5, [], some 5⟩ 3).1.requested := by
  decide

/-- Claim C10: when the cache delete collaborator fails, releaseReservation
itself fails, because the catch block logs and rethrows, even though the
reservation was already removed from the registry in place, so the collaborator
failure is not swallowed and the triggering operation does not complete
normally. -/
theorem release_cache_failure_propagates :
    (releaseReservationCacheThrow "r1" ⟨5, [("r1", ⟨2, 0, 900000⟩)], some 3⟩).1 =
      Except.error "cache delete failed" ∧
    (releaseReservationCacheThrow "r1" ⟨5, [("r1", ⟨2, 0, 900000⟩)], some 3⟩).2.reservations = [] ∧
    (releaseReservationCacheThrow "r1" ⟨5, [("r1", ⟨2, 0, 900000⟩)], some 3⟩).2.cache = some 3 := by
  decide

theorem getReservedStock_snd (now : Int) (l : List (String × Reservation)) :
    (getReservedStock now l).2 =
      l.filter (fun e => decide (now ≤ e.2.createdAt + e.2.ttl)) := by
  induction l with
  | nil => rfl
  | cons e rest ih =>
      by_cases h : now > e.2.createdAt + e.2.ttl
      · simp [getReservedStock, h, ih, not_le.mpr h]
      · simp [getReservedStock, h, ih, not_lt.mp h]

theorem getReservedStock_fst (now : Int) (l : List (String × Reservation)) :
    (getReservedStock now l).1 =
      ((l.filter (fun e => decide (now ≤ e.2.createdAt + e.2.ttl))).map
        (fun e => e.2.quantity)).sum := by
  induction l with
  | nil => rfl
  | cons e rest ih =>
      by_cases h : now > e.2.createdAt + e.2.ttl
      · simp [getReservedStock, h, ih, not_le.mpr h]
      · simp only [getReservedStock, h, if_false, List.filter_cons,
          decide_eq_true_eq, not_lt.mp h, if_true, List.map_cons, List.sum_cons]
        omega

theorem cleanupList_eq_filter (now : Int) (l : List (String × Reservation)) :
    cleanupList now l = l.filter (fun e => decide (now ≤ e.2.createdAt + e.2.ttl)) := by
  induction l with
  | nil => rfl
  | cons e rest ih =>
      by_cases h : now > e.2.createdAt + e.2.ttl
      · simp [cleanupList, h, ih, not_le.mpr h]
      · simp [cleanupList, h, ih, not_lt.mp h]

/-- Claim C5 amended: getReservedStock returns the sum of quantities of
exactly the reservations whose expiry instant createdAt + ttl has not been
strictly passed, a reservation expiring exactly now still counting, and its
lazy eviction keeps exactly those entries; the periodic sweep
cleanupExpiredReservations evicts exactly the same expired set and leaves the
stock untouched, so a reservation created with ttl = t stops reducing
availability once strictly more than t has elapsed since its creation, on the
lazy scan path and on the sweep path alike. -/
theorem getReservedStock_spec (now : Int) (rs : List (String × Reservation))
    (s : InvState) :
    (getReservedStock now rs).1 =
      ((rs.filter (fun e => decide (now ≤ e.2.createdAt + e.2.ttl))).map
        (fun e => e.2.quantity)).sum ∧
    (getReservedStock now rs).2 =
      rs.filter (fun e => decide (now ≤ e.2.createdAt + e.2.ttl)) ∧
    (cleanupExpiredReservations now s).reservations =
      s.reservations.filter (fun e => decide (now ≤ e.2.createdAt + e.2.ttl)) ∧
    (cleanupExpiredReservations now s).stock = s.stock :=
  ⟨getReservedStock_fst now rs, getReservedStock_snd now rs,
   cleanupList_eq_filter now s.reservations, rfl⟩

/-- Claim C9 amended: on a cache miss checkAvailability recomputes and
returns available = (derived availability is at least the request), stock =
the derived availability, requested = the request, and canFulfill = min of
derived availability and request; on a cache hit it answers from the cached
integer c with available = (c is at least the request), stock = c, requested
= the request, but canFulfill = c, the whole cached stock rather than the
minimum with the request. -/
theorem checkAvailability_spec (now stock c quantity : Int)
    (rs : List (String × Reservation)) :
    (checkAvailability now ⟨stock, rs, some c⟩ quantity).1 =
      { available := decide (c ≥ quantity), stock := c, requested := quantity,
        canFulfill := c } ∧
    (checkAvailability now ⟨stock, rs, none⟩ quantity).1 =
      { available := decide (availableNow now ⟨stock, rs, none⟩ ≥ quantity),
        stock := availableNow now ⟨stock, rs, none⟩,
        requested := quantity,
        canFulfill := min (availableNow now ⟨stock, rs, none⟩) quantity } := by
  refine ⟨rfl, ?_⟩
  simp [checkAvailability, availableNow, getReservedStock_fst]

theorem mem_of_mem_getReservedStock_snd {now : Int}
    {l : List (String × Reservation)} {e : String × Reservation}
    (h : e ∈ (getReservedStock now l).2) : e ∈ l := by
  rw [getReservedStock_snd] at h
  exact List.mem_of_mem_filter h

theorem mem_mapSet {l : List (String × Reservation)} {k : String}
    {v : Reservation} {e : String × Reservation}
    (h : e ∈ mapSet l k v) : e = (k, v) ∨ e ∈ l := by
  unfold mapSet at h
  by_cases hc : l.any (fun x => x.1 == k)
  · rw [if_pos hc] at h
    rcases List.mem_map.mp h with ⟨a, ha, rfl⟩
    by_cases hk : (a.1 == k) = true
    · left; simp [hk]
    · right; simpa [hk] using ha
  · rw [if_neg hc] at h
    rcases List.mem_append.mp h with h1 | h1
    · right; exact h1
    · left; simpa using h1

theorem stateValid_checkAvailability (now q : Int) (s : InvState)
    (h : StateValid s) : StateValid (checkAvailability now s q).2 := by
  cases hc : s.cache with
  | some c => simpa [checkAvailability, hc] using h
  | none =>
      refine ⟨?_, ?_⟩
      · simpa [checkAvailability, hc] using h.1
      · intro e he
        simp only [checkAvailability, hc] at he
        exact h.2 e (mem_of_mem_getReservedStock_snd he)

theorem stateValid_execOp (op : Op) (s : InvState) (hop : OpValid op)
    (h : StateValid s) : StateValid (execOp op s) := by
  cases op with
  | reserve now id q ttl =>
      have hv := stateValid_checkAvailability now q s h
      simp only [execOp, reserveStock]
      by_cases hav : (checkAvailability now s q).1.available = true
      · simp only [hav, if_true]
        refine ⟨hv.1, ?_⟩
        intro e he
        simp only [insertReservation] at he
        rcases mem_mapSet he with rfl | he2
        · exact hop
        · exact hv.2 e he2
      · simp only [hav, if_false]
        exact hv
  | release id =>
      simp only [execOp, releaseReservation]
      cases hm : mapGet s.reservations id with
      | none => simpa [hm] using h
      | some r =>
          simp only [hm]
          refine ⟨h.1, ?_⟩
          intro e he
          simp only [mapDelete] at he
          exact h.2 e (List.mem_of_mem_filter he)
  | update q op =>
      simp only [execOp, updateStockKey]
      by_cases h1 : op = "set"
      · simpa [h1] using ⟨hop, h.2⟩
      · by_cases h2 : op = "add"
        · simpa [h1, h2] using ⟨add_nonneg h.1 hop, h.2⟩
        · by_cases h3 : op = "subtract"
          · simpa [h1, h2, h3] using ⟨le_max_left 0 _, h.2⟩
          · simpa [h1, h2, h3] using h

theorem stateValid_execOps (ops : List Op) (s : InvState)
    (hops : ∀ op ∈ ops, OpValid op) (h : StateValid s) :
    StateValid (execOps ops s) := by
  induction ops generalizing s with
  | nil => exact h
  | cons op rest ih =>
      exact ih (execOp op s)
        (fun o ho => hops o (List.mem_cons_of_mem _ ho))
        (stateValid_execOp op s (hops op (List.mem_cons_self _ _)) h)

/-- Claim C2: along every sequence of reserveStock, releaseReservation and
updateStock calls on a single key whose quantities respect the data model
(non-negative), starting from a state with non-negative stock and
reservation quantities, the derived availability max(0, totalStock minus the
non-expired reserved total) evaluated at any instant lies between 0 and the
current totalStock. -/
theorem available_bounds (ops : List Op) (s0 : InvState)
    (hops : ∀ op ∈ ops, OpValid op) (h0 : StateValid s0) (now : Int) :
    0 ≤ availableNow now (execOps ops s0) ∧
      availableNow now (execOps ops s0) ≤ (execOps ops s0).stock := by
  have hs := stateValid_execOps ops s0 hops h0
  constructor
  · exact le_max_left _ _
  · unfold availableNow
    refine max_le hs.1 ?_
    have hsum : 0 ≤
        (((execOps ops s0).reservations.filter
          (fun e => decide (now ≤ e.2.createdAt + e.2.ttl))).map
            (fun e => e.2.quantity)).sum := by
      apply List.sum_nonneg
      intro x hx
      rcases List.mem_map.mp hx with ⟨e, he, rfl⟩
      exact hs.2 e (List.mem_of_mem_filter he)
    exact sub_le_self _ hsum

/-- Claim C2 witness: the bounds instantiated on a concrete run: a reserve of
1 unit at stock 3 followed by a subtract of 4 units. -/
theorem available_bounds_witness :
    0 ≤ availableNow 0
        (execOps [Op.reserve 0 "r1" 1 900, Op.update 4 "subtract"] ⟨3, [], none⟩) ∧
      availableNow 0
          (execOps [Op.reserve 0 "r1" 1 900, Op.update 4 "subtract"] ⟨3, [], none⟩) ≤
        (execOps [Op.reserve 0 "r1" 1 900, Op.update 4 "subtract"] ⟨3, [], none⟩).stock :=
  available_bounds [Op.reserve 0 "r1" 1 900, Op.update 4 "subtract"] ⟨3, [], none⟩
    (by decide) (by decide) 0

theorem mapGet_cons_self (rest : List (String × Reservation)) (k : String)
    (v : Reservation) : mapGet ((k, v) :: rest) k = some v := by
  simp [mapGet, List.find?_cons]

theorem mapGet_cons_ne (e : String × Reservation)
    (rest : List (String × Reservation)) (k : String)
    (he : (e.1 == k) = false) : mapGet (e :: rest) k = mapGet rest k := by
  simp [mapGet, List.find?_cons, he]

theorem mapSet_cons_ne (e : String × Reservation)
    (rest : List (String × Reservation)) (k : String) (v : Reservation)
    (he : (e.1 == k) = false) :
    mapSet (e :: rest) k v = e :: mapSet rest k v := by
  unfold mapSet
  by_cases hr : rest.any (fun x => x.1 == k)
  · rw [if_pos (by simp [List.any_cons, he, hr]), if_pos hr]
    rw [List.map_cons]
    rw [if_neg (by simp [he])]
  · rw [if_neg (by simp [List.any_cons, he, hr]), if_neg hr]
    simp

theorem mapGet_mapSet (l : List (String × Reservation)) (k : String)
    (v : Reservation) : mapGet (mapSet l k v) k = some v := by
  induction l with
  | nil => simp [mapSet, mapGet]
  | cons e rest ih =>
      by_cases he : (e.1 == k) = true
      · unfold mapSet
        rw [if_pos (by simp [List.any_cons, he])]
        rw [List.map_cons]
        rw [if_pos he]
        exact mapGet_cons_self _ _ _
      · have he2 : (e.1 == k) = false := by simpa using he
        rw [mapSet_cons_ne e rest k v he2, mapGet_cons_ne _ _ _ he2]
        exact ih

theorem find?_none_of_mapGet_none {l : List (String × Reservation)} {k : String}
    (h : mapGet l k = none) : ∀ e ∈ l, (e.1 == k) = false := by
  intro e he
  unfold mapGet at h
  have h2 : l.find? (fun x => x.1 == k) = none := by
    cases hf : l.find? (fun x => x.1 == k) with
    | none => rfl
    | some a => rw [hf] at h; simp at h
  have := List.find?_eq_none.mp h2 e he
  simpa using this

theorem mapSet_of_not_mem (l : List (String × Reservation)) (k : String)
    (v : Reservation) (h : ∀ e ∈ l, (e.1 == k) = false) :
    mapSet l k v = l ++ [(k, v)] := by
  have hany : l.any (fun x => x.1 == k) = false := by
    rw [List.any_eq_false]
    intro e he
    simp [h e he]
  unfold mapSet
  rw [hany]
  simp

theorem mapGet_append_single (l : List (String × Reservation)) (k : String)
    (v : Reservation) (h : ∀ e ∈ l, (e.1 == k) = false) :
    mapGet (l ++ [(k, v)]) k = some v := by
  have := mapGet_mapSet l k v
  rwa [mapSet_of_not_mem l k v h] at this

theorem mapDelete_append_single (l : List (String × Reservation)) (k : String)
    (v : Reservation) (h : ∀ e ∈ l, (e.1 == k) = false) :
    mapDelete (l ++ [(k, v)]) k = l := by
  unfold mapDelete
  rw [List.filter_append]
  have h1 : l.filter (fun e => !(e.1 == k)) = l := by
    rw [List.filter_eq_self]
    intro e he
    simp [h e he]
  rw [h1]
  simp

theorem checkAvailability_state (now q : Int) (s : InvState) :
    (checkAvailability now s q).2.stock = s.stock ∧
    (∀ e ∈ (checkAvailability now s q).2.reservations, e ∈ s.reservations) ∧
    ((checkAvailability now s q).2.reservations.filter
        (fun e => decide (now ≤ e.2.createdAt + e.2.ttl)) =
      s.reservations.filter (fun e => decide (now ≤ e.2.createdAt + e.2.ttl))) := by
  cases hc : s.cache with
  | some c => simp [checkAvailability, hc]
  | none =>
      refine ⟨by simp [checkAvailability, hc], ?_, ?_⟩
      · intro e he
        simp only [checkAvailability, hc] at he
        exact mem_of_mem_getReservedStock_snd he
      · simp only [checkAvailability, hc]
        rw [getReservedStock_snd]
        simp [List.filter_filter]

/-- Claim C7 amended: reserveStock called with a reservationId that already
exists in the registry does not fail with a duplicate error: when its
availability check passes, the call succeeds and overwrites the existing
entry in place, so the quantity and expiry stored under that id become the
ones of the new call. -/
theorem reserveStock_duplicate_overwrites (now : Int) (s : InvState)
    (id : String) (q ttl : Int) (r : Reservation)
    (hdup : mapGet s.reservations id = some r)
    (havail : (checkAvailability now s q).1.available = true) :
    (reserveStock now id q ttl s).1 = Except.ok (q, now + ttl * 1000) ∧
    mapGet (reserveStock now id q ttl s).2.reservations id =
      some ⟨q, now, ttl * 1000⟩ := by
  constructor
  · simp [reserveStock, havail]
  · simp only [reserveStock, havail, if_true, insertReservation]
    exact mapGet_mapSet _ id _

/-- Claim C7 witness: the amended statement instantiated at a state already
holding reservation r1 of quantity 2, re-reserving id r1 with quantity 1. -/
theorem reserveStock_duplicate_overwrites_witness :
    (mapGet [("r1", (⟨2, 0, 900000⟩ : Reservation))] "r1" = some ⟨2, 0, 900000⟩ ∧
     (checkAvailability 0 ⟨5, [("r1", ⟨2, 0, 900000⟩)], none⟩ 1).1.available = true) ∧
    ((reserveStock 0 "r1" 1 900 ⟨5, [("r1", ⟨2, 0, 900000⟩)], none⟩).1 =
        Except.ok (1, 0 + 900 * 1000) ∧
     mapGet (reserveStock 0 "r1" 1 900
         ⟨5, [("r1", ⟨2, 0, 900000⟩)], none⟩).2.reservations "r1" =
       some ⟨1, 0, 900 * 1000⟩) :=
  ⟨⟨by decide, by decide⟩,
   reserveStock_duplicate_overwrites 0 ⟨5, [("r1", ⟨2, 0, 900000⟩)], none⟩ "r1" 1 900
     ⟨2, 0, 900000⟩ (by decide) (by decide)⟩

/-- Claim C8 amended: for a reservationId not already present in the
registry, a reserveStock of quantity q whose availability check passes,
followed immediately by releaseReservation of that id, returns success with
that quantity q and restores the derived availability of the key to exactly
its value before the reservation was made. -/
theorem reserve_release_roundtrip (now : Int) (s : InvState) (id : String)
    (q ttl : Int)
    (hfresh : mapGet s.reservations id = none)
    (havail : (checkAvailability now s q).1.available = true) :
    (releaseReservation id (reserveStock now id q ttl s).2).1 =
      { success := true, quantity := some q } ∧
    availableNow now (releaseReservation id (reserveStock now id q ttl s).2).2 =
      availableNow now s := by
  have hne := find?_none_of_mapGet_none hfresh
  obtain ⟨hstock, hsub, hfilter⟩ := checkAvailability_state now q s
  have hneL : ∀ e ∈ (checkAvailability now s q).2.reservations, (e.1 == id) = false :=
    fun e he => hne e (hsub e he)
  have hres2 : (reserveStock now id q ttl s).2 =
      (⟨s.stock,
        (checkAvailability now s q).2.reservations ++ [(id, ⟨q, now, ttl * 1000⟩)],
        none⟩ : InvState) := by
    simp only [reserveStock, havail, if_true, insertReservation]
    rw [mapSet_of_not_mem _ _ _ hneL]
    cases hcs : (checkAvailability now s q).2 with
    | mk a b c => simp_all
  have hget := mapGet_append_single _ id (⟨q, now, ttl * 1000⟩ : Reservation) hneL
  have hdel := mapDelete_append_single _ id (⟨q, now, ttl * 1000⟩ : Reservation) hneL
  rw [hres2]
  constructor
  · simp [releaseReservation, hget]
  · simp only [releaseReservation, hget]
    simp only [availableNow, hdel, hfilter]

/-- Claim C8 witness: the amended round trip instantiated with a fresh id r1
of quantity 2 against a state with stock 5 and one other live hold. -/
theorem reserve_release_roundtrip_witness :
    (mapGet [("r0", (⟨1, 0, 900000⟩ : Reservation))] "r1" = none ∧
     (checkAvailability 0 ⟨5, [("r0", ⟨1, 0, 900000⟩)], none⟩ 2).1.available = true) ∧
    ((releaseReservation "r1"
        (reserveStock 0 "r1" 2 900 ⟨5, [("r0", ⟨1, 0, 900000⟩)], none⟩).2).1 =
      { success := true, quantity := some 2 } ∧
     availableNow 0
        (releaseReservation "r1"
          (reserveStock 0 "r1" 2 900 ⟨5, [("r0", ⟨1, 0, 900000⟩)], none⟩).2).2 =
      availableNow 0 ⟨5, [("r0", ⟨1, 0, 900000⟩)], none⟩) :=
  ⟨⟨by decide, by decide⟩,
   reserve_release_roundtrip 0 ⟨5, [("r0", ⟨1, 0, 900000⟩)], none⟩ "r1" 2 900
     (by decide) (by decide)⟩

/-- Claim C4: updateStock with operation set writes exactly the requested
quantity, with add writes oldStock + quantity, with subtract writes
max(0, oldStock - quantity) and so never goes negative; when a size or color
variant is targeted the resolved variant gets its stock written by the same
switch and the aggregate product stock is recomputed as the sum of all
variant stocks; an unknown operation fails with InvalidOperation. -/
theorem updateStock_spec (p : Product) (q : Int) :
    updateStock (some p) q "set" none none =
      Except.ok (p.stock, q, { p with stock := q }) ∧
    updateStock (some p) q "add" none none =
      Except.ok (p.stock, p.stock + q, { p with stock := p.stock + q }) ∧
    (updateStock (some p) q "subtract" none none =
      Except.ok (p.stock, max 0 (p.stock - q), { p with stock := max 0 (p.stock - q) }) ∧
     0 ≤ max 0 (p.stock - q)) ∧
    (∀ op : String, op ≠ "set" → op ≠ "add" → op ≠ "subtract" →
      updateStock (some p) q op none none = Except.error InvError.InvalidOperation) ∧
    (∀ size color : Option String, ∀ i : Nat, ∀ op : String, ∀ newStock : Int,
      (size.isSome || color.isSome) = true →
      p.variants.findIdx? (variantMatches size color) = some i →
      ((op = "set" ∧ newStock = q) ∨
       (op = "add" ∧ newStock = (p.variants.getD i ⟨none, none, 0⟩).stock + q) ∨
       (op = "subtract" ∧
        newStock = max 0 ((p.variants.getD i ⟨none, none, 0⟩).stock - q))) →
      updateStock (some p) q op size color =
        Except.ok ((p.variants.getD i ⟨none, none, 0⟩).stock, newStock,
          { p with
            variants := p.variants.set i
              { p.variants.getD i ⟨none, none, 0⟩ with stock := newStock },
            stock := ((p.variants.set i
              { p.variants.getD i ⟨none, none, 0⟩ with stock := newStock }).map
                (fun w => w.stock)).sum })) := by
  refine ⟨rfl, rfl, ⟨rfl, le_max_left 0 _⟩, ?_, ?_⟩
  · intro op h1 h2 h3
    simp only [updateStock, Option.isSome_none, Bool.or_self, Bool.false_eq_true,
      if_false]
    rw [if_neg h1, if_neg h2, if_neg h3]
  · intro size color i op newStock hsc hfind hop
    rcases hop with ⟨rfl, rfl⟩ | ⟨rfl, rfl⟩ | ⟨rfl, rfl⟩ <;>
      simp [updateStock, hsc, hfind]

/-- Claim C4 witness: the statements instantiated on a concrete product with
two sized variants, an unknown operation string, and a subtract on the size 9
variant that floors at 0 and re-aggregates the product stock. -/
theorem updateStock_spec_witness :
    (("resupply" : String) ≠ "set" ∧ ("resupply" : String) ≠ "add" ∧
     ("resupply" : String) ≠ "subtract" ∧
     ((some "9" : Option String).isSome || (none : Option String).isSome) = true ∧
     witnessProduct.variants.findIdx? (variantMatches (some "9") none) = some 0) ∧
    updateStock (some witnessProduct) 3 "resupply" none none =
      Except.error InvError.InvalidOperation ∧
    updateStock (some witnessProduct) 3 "subtract" (some "9") none =
      Except.ok ((witnessProduct.variants.getD 0 ⟨none, none, 0⟩).stock,
        max 0 ((witnessProduct.variants.getD 0 ⟨none, none, 0⟩).stock - 3),
        { witnessProduct with
          variants := witnessProduct.variants.set 0
            { witnessProduct.variants.getD 0 ⟨none, none, 0⟩ with
              stock := max 0 ((witnessProduct.variants.getD 0 ⟨none, none, 0⟩).stock - 3) },
          stock := ((witnessProduct.variants.set 0
            { witnessProduct.variants.getD 0 ⟨none, none, 0⟩ with
              stock := max 0 ((witnessProduct.variants.getD 0 ⟨none, none, 0⟩).stock - 3) }).map
              (fun w => w.stock)).sum }) :=
  ⟨⟨by decide, by decide, by decide, rfl, by decide⟩,
   (updateStock_spec witnessProduct 3).2.2.2.1 "resupply" (by decide) (by decide) (by decide),
   (updateStock_spec witnessProduct 3).2.2.2.2 (some "9") none 0 "subtract" _ rfl
     (by decide) (Or.inr (Or.inr ⟨rfl, rfl⟩))⟩

end Inventory
